import Mathlib

/-!
Verification of the NVDLA queue/task management engine (T194): task
descriptor construction (action-list fill-in), buffer/fence pinning and
the unwind path, the submission protocol, the completion scan and the
abort/flush protocol.  The definitions below are a shallow embedding of
the corresponding C functions; external collaborators (buffer mapping,
syncpoint service, power management, command dispatch) are supplied as
environment parameters, exactly at the interface the code calls them.
-/

namespace Nvdla

/-- Modulus of the driver's 32-bit hardware counters (`u32`). -/
def U32MOD : Nat := 4294967296

/-- C `u32` addition (wraps modulo 2^32). -/
def add32 (a b : Nat) : Nat := (a + b) % U32MOD

/-- C `u32` subtraction (wraps modulo 2^32). -/
def sub32 (a b : Nat) : Nat := (a % U32MOD + U32MOD - b % U32MOD) % U32MOD

/-- `-EINVAL`, as returned by the fill helpers on failure. -/
def EINVAL : Int := -22

/-- `-EFAULT`, as returned by `nvdla_map_task_memory` on a null handle. -/
def EFAULT : Int := -14

/-- `enum nvdev_fence_type`: the four fence kinds the driver dispatches on. -/
inductive FenceType
  | syncpt
  | syncFd
  | semaphore
  | semaphoreTs
deriving DecidableEq

/-- `NVDEV_FENCE_WAIT` / `NVDEV_FENCE_SIGNAL` / `NVDEV_FENCE_SIGNAL_STRIDE`. -/
inductive FenceAction
  | wait
  | signal
  | signalStride
deriving DecidableEq

/-- `struct nvdev_fence`: the fields the queue code reads. -/
structure NvdevFence where
  type : FenceType := FenceType.syncpt
  action : FenceAction := FenceAction.wait
  syncpoint_index : Nat := 0
  syncpoint_value : Nat := 0
  sync_fd : Nat := 0
  semaphore_handle : Nat := 0
  semaphore_offset : Nat := 0
  semaphore_value : Nat := 0
deriving DecidableEq

/-- `struct nvdla_status_notify`: handle, offset and status value. -/
structure NvdlaStatusNotify where
  handle : Nat := 0
  offset : Nat := 0
  status : Nat := 0
deriving DecidableEq

/-- Timestamp handle entry (`struct nvdla_mem_handle` used for timestamps). -/
structure NvdlaMemHandle where
  handle : Nat := 0
  offset : Nat := 0
deriving DecidableEq

/-- `NVDLA_BUFFER_TYPE_INTERNAL` versus an external, pinnable buffer. -/
inductive BufferType
  | internal
  | external
deriving DecidableEq

/-- An entry of `task->memory_handles`. -/
structure NvdlaMemoryHandle where
  handle : Nat := 0
  offset : Nat := 0
  type : BufferType := BufferType.external
deriving DecidableEq

/-- `struct nvdla_task`: the fields the queue code reads and writes.
    Arrays with their `num_*` counters are modelled as lists. -/
structure NvdlaTask where
  prefences : List NvdevFence := []
  postfences : List NvdevFence := []
  in_task_status : List NvdlaStatusNotify := []
  sof_task_status : List NvdlaStatusNotify := []
  eof_task_status : List NvdlaStatusNotify := []
  sof_timestamps : List NvdlaMemHandle := []
  eof_timestamps : List NvdlaMemHandle := []
  memory_handles : List NvdlaMemoryHandle := []
  fence : Nat := 0
  fence_counter : Nat := 0
  task_desc_pa : Nat := 0
deriving DecidableEq

/-- The fixed-format action records (`dla_action_opcode` plus payload)
    written into the pre/post action lists. -/
inductive Action
  | semGe (addr val : Nat)
  | writeSem (addr val : Nat)
  | incrementSem (addr val : Nat)
  | writeTsSem (addr val : Nat)
  | taskStatusEq (addr status : Nat)
  | writeTaskStatus (addr status : Nat)
  | writeTimestamp (addr : Nat)
  | terminate
deriving DecidableEq

/-- External collaborators used during task-descriptor construction:
    `nvdla_buffer_submit_pin` (`pin`, `none` = pin failure),
    `nvhost_syncpt_address` (`syncptAddr`), `nvhost_fence_get` over a
    sync-file descriptor (`fenceGet`, listing the contained syncpoint
    `(id, thresh)` pairs, `none` = `nvhost_fence_get` failure),
    `nvhost_syncpt_is_valid_pt_ext` (`syncptValid`), and the byte offset
    `nvdla_profile_status_offset` (computed in C from descriptor struct
    sizes that live in headers outside this file's scope). -/
structure Env where
  pin : Nat → Option (Nat × Nat)
  syncptAddr : Nat → Nat
  fenceGet : Nat → Option (List (Nat × Nat))
  syncptValid : Nat → Bool
  profileStatusOffset : Nat

/-- Outcome of one fill step: the error code (`0` = success, negative on
    failure), the action records appended, the buffer handles pinned, and
    the amount added to `task->fence_counter`. -/
structure StepOut where
  err : Int := 0
  acts : List Action := []
  pins : List Nat := []
  fcInc : Nat := 0
deriving DecidableEq

/-- The `nvdla_add_fence_action_cb` callback iterated by
    `nvhost_fence_foreach_pt`: one `ACTION_SEM_GE` per contained
    syncpoint, `-EINVAL` if an id is zero or invalid. -/
def syncFdWaitActions (env : Env) : List (Nat × Nat) → Except Int (List Action)
  | [] => Except.ok []
  | (id, thresh) :: rest =>
    if id = 0 ∨ env.syncptValid id = false then Except.error EINVAL
    else
      match syncFdWaitActions env rest with
      | Except.error e => Except.error e
      | Except.ok as => Except.ok (Action.semGe (env.syncptAddr id) thresh :: as)

/-- `nvdla_fill_wait_fence_action`.  Note that in the `SYNC_FD` case a
    failed `nvhost_fence_get` and in the semaphore cases a failed pin
    merely `break` out of the switch with `err` still `0`: the action is
    omitted and success is reported. -/
def nvdla_fill_wait_fence_action (env : Env) (f : NvdevFence) : StepOut :=
  match f.type with
  | FenceType.syncFd =>
    match env.fenceGet f.sync_fd with
    | none => {}
    | some pts =>
      match syncFdWaitActions env pts with
      | Except.error e => {err := e}
      | Except.ok as => {acts := as}
  | FenceType.syncpt =>
    {acts := [Action.semGe (env.syncptAddr f.syncpoint_index) f.syncpoint_value]}
  | FenceType.semaphore =>
    match env.pin f.semaphore_handle with
    | none => {}
    | some ds =>
      {acts := [Action.semGe (ds.1 + f.semaphore_offset) f.semaphore_value],
       pins := [f.semaphore_handle]}
  | FenceType.semaphoreTs =>
    match env.pin f.semaphore_handle with
    | none => {}
    | some ds =>
      {acts := [Action.semGe (ds.1 + f.semaphore_offset) f.semaphore_value],
       pins := [f.semaphore_handle]}

/-- `nvdla_fill_signal_fence_action` for the queue with syncpoint id
    `syncptId`.  Syncpoint/sync-fd signals target the queue's own counter
    and bump `fence_counter`; semaphore signals pin the backing buffer,
    and a failed pin again `break`s with `err = 0`. -/
def nvdla_fill_signal_fence_action (env : Env) (syncptId : Nat) (f : NvdevFence) : StepOut :=
  match f.type with
  | FenceType.syncFd =>
    {acts := [Action.writeSem (env.syncptAddr syncptId) 1], fcInc := 1}
  | FenceType.syncpt =>
    {acts := [Action.writeSem (env.syncptAddr syncptId) 1], fcInc := 1}
  | FenceType.semaphore =>
    match env.pin f.semaphore_handle with
    | none => {}
    | some ds =>
      if f.action = FenceAction.signalStride then
        {acts := [Action.incrementSem (ds.1 + f.semaphore_offset) f.semaphore_value],
         pins := [f.semaphore_handle]}
      else
        {acts := [Action.writeSem (ds.1 + f.semaphore_offset) f.semaphore_value],
         pins := [f.semaphore_handle]}
  | FenceType.semaphoreTs =>
    match env.pin f.semaphore_handle with
    | none => {}
    | some ds =>
      {acts := [Action.writeTsSem (ds.1 + f.semaphore_offset) f.semaphore_value],
       pins := [f.semaphore_handle]}

/-- `nvdla_fill_taskstatus_read_action`: pin the status buffer and append
    `ACTION_TASK_STATUS_EQ`; a failed pin is `-EINVAL`. -/
def nvdla_fill_taskstatus_read_action (env : Env) (s : NvdlaStatusNotify) : StepOut :=
  match env.pin s.handle with
  | none => {err := EINVAL}
  | some ds => {acts := [Action.taskStatusEq (ds.1 + s.offset) s.status], pins := [s.handle]}

/-- `nvdla_fill_taskstatus_write_action`: pin and append
    `ACTION_WRITE_TASK_STATUS`; a failed pin is `-EINVAL`. -/
def nvdla_fill_taskstatus_write_action (env : Env) (s : NvdlaStatusNotify) : StepOut :=
  match env.pin s.handle with
  | none => {err := EINVAL}
  | some ds => {acts := [Action.writeTaskStatus (ds.1 + s.offset) s.status], pins := [s.handle]}

/-- `nvdla_fill_timestamp_write_action`: pin and append
    `ACTION_WRITE_TIMESTAMP`; a failed pin is `-EINVAL`. -/
def nvdla_fill_timestamp_write_action (env : Env) (t : NvdlaMemHandle) : StepOut :=
  match env.pin t.handle with
  | none => {err := EINVAL}
  | some ds => {acts := [Action.writeTimestamp (ds.1 + t.offset)], pins := [t.handle]}

/-- One fill loop of the action-list builder: apply `step` to each entry
    in order, stopping at the first step whose `err < 0` (the C loops
    check `if (err < 0) goto fail`), concatenating emitted actions and
    accumulating pins and `fence_counter` increments. -/
def fillLoop (step : α → StepOut) : List α → StepOut
  | [] => {}
  | x :: xs =>
    let o := step x
    if o.err < 0 then o
    else
      let r := fillLoop step xs
      {err := r.err, acts := o.acts ++ r.acts, pins := o.pins ++ r.pins,
       fcInc := o.fcInc + r.fcInc}

/-- Sequencing of two fill phases with the same early-exit discipline. -/
def seqStep (a b : StepOut) : StepOut :=
  if a.err < 0 then a
  else
    {err := b.err, acts := a.acts ++ b.acts, pins := a.pins ++ b.pins,
     fcInc := a.fcInc + b.fcInc}

/-- The wait-prefence pass of `nvdla_fill_preactions`: prefences whose
    action is not `NVDEV_FENCE_WAIT` are skipped (`continue`). -/
def waitStep (env : Env) (f : NvdevFence) : StepOut :=
  if f.action = FenceAction.wait then nvdla_fill_wait_fence_action env f else {}

/-- The signal-prefence pass of `nvdla_fill_preactions`: prefences whose
    action is neither `SIGNAL` nor `SIGNAL_STRIDE` are skipped. -/
def signalPrefenceStep (env : Env) (syncptId : Nat) (f : NvdevFence) : StepOut :=
  if f.action = FenceAction.signal ∨ f.action = FenceAction.signalStride then
    nvdla_fill_signal_fence_action env syncptId f
  else {}

/-- `nvdla_fill_preactions`: wait prefences, then input task-status
    checks, then start-of-frame status writes, then start-of-frame
    timestamp writes, then signal prefences, then `ACTION_TERMINATE`.
    On failure the terminate opcode is not appended and the error is
    returned. -/
def nvdla_fill_preactions (env : Env) (syncptId : Nat) (task : NvdlaTask) : StepOut :=
  let o :=
    seqStep (fillLoop (waitStep env) task.prefences)
      (seqStep (fillLoop (nvdla_fill_taskstatus_read_action env) task.in_task_status)
        (seqStep (fillLoop (nvdla_fill_taskstatus_write_action env) task.sof_task_status)
          (seqStep (fillLoop (nvdla_fill_timestamp_write_action env) task.sof_timestamps)
            (fillLoop (signalPrefenceStep env syncptId) task.prefences))))
  if o.err < 0 then o else {o with acts := o.acts ++ [Action.terminate]}

/-- `nvdla_fill_postactions`: first the internal completion-status write
    (an `ACTION_WRITE_TASK_STATUS` of status `0` into the task's own
    notifier region at `task_desc_pa + nvdla_profile_status_offset`),
    then end-of-frame timestamp writes, then end-of-frame status writes,
    then every postfence as a signal action, then `ACTION_TERMINATE`. -/
def nvdla_fill_postactions (env : Env) (syncptId : Nat) (task : NvdlaTask) : StepOut :=
  let first : StepOut :=
    {acts := [Action.writeTaskStatus (task.task_desc_pa + env.profileStatusOffset) 0]}
  let o :=
    seqStep first
      (seqStep (fillLoop (nvdla_fill_timestamp_write_action env) task.eof_timestamps)
        (seqStep (fillLoop (nvdla_fill_taskstatus_write_action env) task.eof_task_status)
          (fillLoop (fun f => nvdla_fill_signal_fence_action env syncptId f) task.postfences)))
  if o.err < 0 then o else {o with acts := o.acts ++ [Action.terminate]}

/-- One entry of the `nvdla_map_task_memory` address-list loop: internal
    buffers contribute their raw offset and need no pin; an external
    entry with a null handle is `-EFAULT`; otherwise the handle is
    pinned (a pin failure aborts the loop).  The 64-bit address words
    written into the address list are not tracked here; only the error
    and pin behaviour is referenced by the properties below. -/
def mapMemStep (env : Env) (m : NvdlaMemoryHandle) : StepOut :=
  match m.type with
  | BufferType.internal => {}
  | BufferType.external =>
    if m.handle = 0 then {err := EFAULT}
    else
      match env.pin m.handle with
      | none => {err := EINVAL}
      | some _ => {pins := [m.handle]}

/-- `nvdla_map_task_memory`: pin the whole address list in order. -/
def nvdla_map_task_memory (env : Env) (task : NvdlaTask) : StepOut :=
  fillLoop (mapMemStep env) task.memory_handles

/-- The unpin condition of the address-list pass of
    `nvdla_unmap_task_memory`: internal entries and null handles are
    skipped. -/
def unmapMemFm (m : NvdlaMemoryHandle) : Option Nat :=
  if m.type = BufferType.internal then none
  else if m.handle ≠ 0 then some m.handle else none

/-- The unpin condition of the fence passes of `nvdla_unmap_task_memory`:
    semaphore-backed fences with a non-null handle. -/
def unmapSemFm (f : NvdevFence) : Option Nat :=
  if (f.type = FenceType.semaphore ∨ f.type = FenceType.semaphoreTs) ∧
      f.semaphore_handle ≠ 0 then some f.semaphore_handle else none

/-- The unpin condition of the task-status passes of
    `nvdla_unmap_task_memory`: non-null handles. -/
def unmapStatusFm (s : NvdlaStatusNotify) : Option Nat :=
  if s.handle ≠ 0 then some s.handle else none

/-- The unpin condition of the timestamp passes of
    `nvdla_unmap_task_memory`: non-null handles. -/
def unmapTsFm (t : NvdlaMemHandle) : Option Nat :=
  if t.handle ≠ 0 then some t.handle else none

/-- `nvdla_unmap_task_memory`: the unpin sequence, in source order —
    address-list handles (internal entries skipped), semaphore-backed
    prefences, input task status, semaphore-backed postfences, sof/eof
    task status, sof/eof timestamps; entries with a null handle are
    skipped. -/
def nvdla_unmap_task_memory (task : NvdlaTask) : List Nat :=
  (task.memory_handles.filterMap unmapMemFm)
  ++ (task.prefences.filterMap unmapSemFm)
  ++ (task.in_task_status.filterMap unmapStatusFm)
  ++ (task.postfences.filterMap unmapSemFm)
  ++ (task.sof_task_status.filterMap unmapStatusFm)
  ++ (task.eof_task_status.filterMap unmapStatusFm)
  ++ (task.sof_timestamps.filterMap unmapTsFm)
  ++ (task.eof_timestamps.filterMap unmapTsFm)

/-- Outcome of `nvdla_fill_task_desc`: error code, the two action lists,
    the pins still held on return, and the unpins performed by the
    failure unwind (`nvdla_unmap_task_memory`). -/
structure FillDescOut where
  err : Int := 0
  preacts : List Action := []
  postacts : List Action := []
  pins : List Nat := []
  unpins : List Nat := []
  fenceCounter : Nat := 0
deriving DecidableEq

/-- `nvdla_fill_task_desc`: reset `fence_counter`, fill preactions, fill
    postactions, map the address list; on any failure call
    `nvdla_unmap_task_memory` and return the error.  Plain descriptor
    header writes (version, engine id, sequence, sizes) are not modelled;
    no property below refers to them. -/
def nvdla_fill_task_desc (env : Env) (syncptId : Nat) (task : NvdlaTask) : FillDescOut :=
  let pre := nvdla_fill_preactions env syncptId task
  if pre.err ≠ 0 then
    {err := pre.err, preacts := pre.acts, pins := pre.pins,
     unpins := nvdla_unmap_task_memory task, fenceCounter := pre.fcInc}
  else
    let post := nvdla_fill_postactions env syncptId task
    if post.err ≠ 0 then
      {err := post.err, preacts := pre.acts, postacts := post.acts,
       pins := pre.pins ++ post.pins, unpins := nvdla_unmap_task_memory task,
       fenceCounter := pre.fcInc + post.fcInc}
    else
      let mm := nvdla_map_task_memory env task
      if mm.err ≠ 0 then
        {err := mm.err, preacts := pre.acts, postacts := post.acts,
         pins := pre.pins ++ post.pins ++ mm.pins,
         unpins := nvdla_unmap_task_memory task,
         fenceCounter := pre.fcInc + post.fcInc}
      else
        {err := 0, preacts := pre.acts, postacts := post.acts,
         pins := pre.pins ++ post.pins ++ mm.pins, unpins := [],
         fenceCounter := pre.fcInc + post.fcInc}

/-- `nvdla_dev->submit_mode`: `NVDLA_SUBMIT_MODE_CHANNEL` or
    `NVDLA_SUBMIT_MODE_MMIO`. -/
inductive SubmitMode
  | channel
  | mmio
deriving DecidableEq

/-- The queue state the submit/abort/update operations mutate: the
    in-flight task list and the queue's syncpoint (its reserved maximum
    and its current/min value), both modelled as unbounded monotone
    naturals at the syncpoint-service interface. -/
structure QueueState where
  tasklist : List NvdlaTask := []
  syncptMax : Nat := 0
  syncptMin : Nat := 0
deriving DecidableEq

/-- Results the external collaborators hand to `nvdla_queue_submit_op`:
    `nvhost_module_busy`, `nvdla_send_cmd_channel`,
    `nvhost_intr_register_notifier` and `nvdla_send_cmd` (`0` = success). -/
structure SubmitEnv where
  mode : SubmitMode := SubmitMode.channel
  moduleBusy : Int := 0
  sendChannel : Int := 0
  registerNotifier : Int := 0
  sendMmio : Int := 0
deriving DecidableEq

/-- Outcome of `nvdla_queue_submit_op`: the returned error code, the
    resulting queue state, whether `nvdla_task_get` ran, whether the
    failure path freed the task (`nvdla_task_free_locked`: unmap,
    `list_del`, drop the reference), whether a power reference was
    acquired and how many `nvhost_module_idle` calls were made. -/
structure SubmitOut where
  err : Int := 0
  tasklist : List NvdlaTask := []
  syncptMax : Nat := 0
  syncptMin : Nat := 0
  taskRefTaken : Bool := true
  taskFreed : Bool := false
  powerAcquired : Bool := false
  powerIdleCalls : Nat := 0
deriving DecidableEq

/-- `nvdla_queue_submit_op`.  Under the list lock: take a task
    reference; in MMIO mode reserve `fence_counter` increments
    (`nvhost_syncpt_incr_max_ext`) and store the resulting max as the
    task's fence; link and append the task to the task list; acquire the
    power reference — note that the return value of `nvhost_module_busy`
    is discarded, so this failure path returns with `err` still `0`; in
    channel mode dispatch through `nvdla_send_cmd_channel` (failure runs
    `nvhost_module_idle` and `nvdla_task_free_locked`); register the
    completion notifier (failure likewise); in MMIO mode dispatch through
    `nvdla_send_cmd` (failure leaves the task queued and forces the
    syncpoint to the task's fence via `nvhost_syncpt_set_min_update`). -/
def nvdla_queue_submit_op (env : SubmitEnv) (st : QueueState) (task : NvdlaTask) : SubmitOut :=
  let task1 := if env.mode = SubmitMode.mmio
               then {task with fence := add32 st.syncptMax task.fence_counter}
               else task
  let max1 := if env.mode = SubmitMode.mmio
              then add32 st.syncptMax task.fence_counter
              else st.syncptMax
  let added := st.tasklist ++ [task1]
  if env.moduleBusy ≠ 0 then
    {err := 0, tasklist := st.tasklist, syncptMax := max1, syncptMin := st.syncptMin,
     taskRefTaken := true, taskFreed := true, powerAcquired := false, powerIdleCalls := 0}
  else if env.mode = SubmitMode.channel ∧ env.sendChannel ≠ 0 then
    {err := env.sendChannel, tasklist := st.tasklist, syncptMax := max1,
     syncptMin := st.syncptMin, taskRefTaken := true, taskFreed := true,
     powerAcquired := true, powerIdleCalls := 1}
  else if env.registerNotifier ≠ 0 then
    {err := env.registerNotifier, tasklist := st.tasklist, syncptMax := max1,
     syncptMin := st.syncptMin, taskRefTaken := true, taskFreed := true,
     powerAcquired := true, powerIdleCalls := 1}
  else if env.mode = SubmitMode.mmio ∧ env.sendMmio ≠ 0 then
    {err := env.sendMmio, tasklist := added, syncptMax := max1,
     syncptMin := task1.fence, taskRefTaken := true, taskFreed := false,
     powerAcquired := true, powerIdleCalls := 0}
  else
    {err := 0, tasklist := added, syncptMax := max1, syncptMin := st.syncptMin,
     taskRefTaken := true, taskFreed := false, powerAcquired := true, powerIdleCalls := 0}

/-- Modelled from the spec: `nvhost_syncpt_is_expired_ext` over the
    monotone Nat counter model — a task is complete once the counter has
    reached its target (§4.5, glossary); the 32-bit wraparound-safe
    comparison of the external syncpoint service collapses to `≤` here
    because counters are unbounded naturals in this model. -/
def nvhost_syncpt_is_expired (current target : Nat) : Bool :=
  target ≤ current

/-- The scan loop of `nvdla_queue_update` (`list_for_each_entry_safe`):
    returns the completed tasks removed (in list order) and the tasks
    that remain queued. -/
def nvdla_queue_scan (syncptMin : Nat) : List NvdlaTask → List NvdlaTask × List NvdlaTask
  | [] => ([], [])
  | t :: ts =>
    let (c, r) := nvdla_queue_scan syncptMin ts
    if nvhost_syncpt_is_expired syncptMin t.fence then (t :: c, r)
    else (c, t :: r)

/-- Outcome of `nvdla_queue_update`: the remaining task list, the
    completed tasks removed from it, and the arguments of the
    `nvhost_module_idle_mult` calls that were made. -/
structure UpdateOut where
  tasklist : List NvdlaTask := []
  completed : List NvdlaTask := []
  idleMultCalls : List Nat := []
deriving DecidableEq

/-- `nvdla_queue_update`: under the list lock, free every task whose
    fence the counter has reached, then release one accumulated power
    reference per completed task in a single batched
    `nvhost_module_idle_mult` call after the scan. -/
def nvdla_queue_update (syncptMin : Nat) (tasks : List NvdlaTask) : UpdateOut :=
  let (c, r) := nvdla_queue_scan syncptMin tasks
  {tasklist := r, completed := c, idleMultCalls := [c.length]}

/-- `DLA_ERR_PROCESSOR_BUSY` from `dla_os_interface.h` (header outside
    this scope): the distinguished busy status of the command dispatch
    service; only its being nonzero and distinct from hard failures
    matters to the abort retry loop. -/
def DLA_ERR_PROCESSOR_BUSY : Int := 9

/-- `NVDLA_QUEUE_ABORT_TIMEOUT / NVDLA_QUEUE_ABORT_RETRY_PERIOD`. -/
def NVDLA_ABORT_RETRY_COUNT : Nat := 20

/-- The abort flush retry loop: send `DLA_CMD_QUEUE_FLUSH`, retrying on
    `DLA_ERR_PROCESSOR_BUSY` until the bounded retry count is exhausted
    (`do { err = send; ... } while (--retry)`); returns the final error
    and the number of commands sent. -/
def nvdla_abort_flush_loop (send : Nat → Int) (attempt : Nat) : Nat → Int × Nat
  | 0 => (DLA_ERR_PROCESSOR_BUSY, attempt)
  | Nat.succ r =>
    let e := send attempt
    if e = DLA_ERR_PROCESSOR_BUSY then nvdla_abort_flush_loop send (attempt + 1) r
    else (e, attempt + 1)

/-- Outcome of `nvdla_queue_abort_op`: the returned error code, the
    resulting queue state, whether a power reference was acquired, how
    many `nvhost_module_idle` calls ran, and how many flush commands were
    sent. -/
structure AbortOut where
  err : Int := 0
  tasklist : List NvdlaTask := []
  syncptMin : Nat := 0
  syncptMax : Nat := 0
  powerAcquired : Bool := false
  powerIdleCalls : Nat := 0
  flushCmdsSent : Nat := 0
deriving DecidableEq

/-- `nvdla_queue_abort_op`.  Empty task list: return `0` at once with no
    effect.  Otherwise acquire the power reference (failure returns its
    error), run the bounded flush retry loop; on `!retry || err` give the
    power reference back and return the error; on flush success read the
    syncpoint maximum (`nvhost_syncpt_read_maxval`) and force the counter
    there (`nvhost_syncpt_set_min_update`) so every queued task's target
    is reached, then give the power reference back and return `0`.  The
    task list itself is not touched; reclamation is left to the
    completion path. -/
def nvdla_queue_abort_op (busyResult : Int) (send : Nat → Int) (st : QueueState) : AbortOut :=
  if st.tasklist = [] then
    {err := 0, tasklist := st.tasklist, syncptMin := st.syncptMin, syncptMax := st.syncptMax,
     powerAcquired := false, powerIdleCalls := 0, flushCmdsSent := 0}
  else if busyResult ≠ 0 then
    {err := busyResult, tasklist := st.tasklist, syncptMin := st.syncptMin,
     syncptMax := st.syncptMax, powerAcquired := false, powerIdleCalls := 0,
     flushCmdsSent := 0}
  else
    let fr := nvdla_abort_flush_loop send 0 NVDLA_ABORT_RETRY_COUNT
    if fr.1 ≠ 0 then
      {err := fr.1, tasklist := st.tasklist, syncptMin := st.syncptMin,
       syncptMax := st.syncptMax, powerAcquired := true, powerIdleCalls := 1,
       flushCmdsSent := fr.2}
    else
      {err := 0, tasklist := st.tasklist, syncptMin := st.syncptMax,
       syncptMax := st.syncptMax, powerAcquired := true, powerIdleCalls := 1,
       flushCmdsSent := fr.2}

/-- The signal fences eligible for value assignment: action is
    `NVDEV_FENCE_SIGNAL` and the type is syncpoint-backed (`SYNCPT` or
    `SYNC_FD`). -/
def isSignalSyncpt (f : NvdevFence) : Bool :=
  decide (f.action = FenceAction.signal ∧
          (f.type = FenceType.syncpt ∨ f.type = FenceType.syncFd))

/-- The fence-rewrite loops shared by `nvdla_get_signal_fences` and
    `nvdla_emulator_submit`: walk the fence array, and for each
    syncpoint-backed `SIGNAL` fence set its syncpoint index to the
    queue's and its value to `task_fence - counter`, decrementing the
    `u32` counter; other fences are left untouched.  Returns the updated
    array and the final counter. -/
def assignSignalFences (syncptId taskFence : Nat) :
    List NvdevFence → Nat → List NvdevFence × Nat
  | [], c => ([], c)
  | f :: fs, c =>
    if isSignalSyncpt f then
      let f1 := {f with syncpoint_index := syncptId,
                        syncpoint_value := sub32 taskFence c}
      let rest := assignSignalFences syncptId taskFence fs (sub32 c 1)
      (f1 :: rest.1, rest.2)
    else
      let rest := assignSignalFences syncptId taskFence fs c
      (f :: rest.1, rest.2)

/-- Outcome of `nvdla_get_signal_fences`: the updated task and the local
    `task_fence` value the assignments were computed from
    (`nvhost_syncpt_read_maxval + fence_counter`). -/
structure SignalFencesOut where
  task : NvdlaTask
  taskFence : Nat
deriving DecidableEq

/-- `nvdla_get_signal_fences`: if the task's `fence_counter` is zero,
    force it to one; compute `task_fence` as the syncpoint maximum plus
    `fence_counter`; then rewrite every syncpoint-backed signal fence of
    the prefence and postfence arrays with a counter starting at
    `fence_counter - 1` and decreasing across both arrays. -/
def nvdla_get_signal_fences (syncptMaxval syncptId : Nat) (task : NvdlaTask) :
    SignalFencesOut :=
  let fc := if task.fence_counter = 0 then 1 else task.fence_counter
  let taskFence := add32 syncptMaxval fc
  let pre := assignSignalFences syncptId taskFence task.prefences (sub32 fc 1)
  let post := assignSignalFences syncptId taskFence task.postfences pre.2
  {task := {task with prefences := pre.1, postfences := post.1, fence_counter := fc},
   taskFence := taskFence}

/-- The counting loops of `nvdla_emulator_submit`: each `SIGNAL` fence of
    syncpoint-backed type adds one to `fence_counter`; a `SIGNAL` fence
    of any other type returns `-EINVAL` at once; other actions are
    skipped. -/
def countSignalSyncptFences : List NvdevFence → Nat → Int × Nat
  | [], acc => (0, acc)
  | f :: fs, acc =>
    if f.action ≠ FenceAction.signal then countSignalSyncptFences fs acc
    else
      match f.type with
      | FenceType.syncpt => countSignalSyncptFences fs (acc + 1)
      | FenceType.syncFd => countSignalSyncptFences fs (acc + 1)
      | FenceType.semaphore => (EINVAL, acc)
      | FenceType.semaphoreTs => (EINVAL, acc)

/-- Outcome of `nvdla_emulator_submit`: error code, the updated task and
    the syncpoint maximum after the `nvhost_syncpt_incr_max_ext`
    reservation. -/
structure EmulatorOut where
  err : Int := 0
  task : NvdlaTask
  syncptMax : Nat := 0
deriving DecidableEq

/-- `nvdla_emulator_submit`: reset and recount `fence_counter` over the
    prefences then the postfences (rejecting non-syncpoint signal fences
    with `-EINVAL`), reserve that many increments to obtain the task's
    fence, then rewrite every syncpoint-backed signal fence exactly as
    `nvdla_get_signal_fences` does, with the counter starting at
    `fence_counter - 1`. -/
def nvdla_emulator_submit (syncptMaxval syncptId : Nat) (task : NvdlaTask) : EmulatorOut :=
  let c1 := countSignalSyncptFences task.prefences 0
  if c1.1 ≠ 0 then
    {err := c1.1, task := {task with fence_counter := c1.2}, syncptMax := syncptMaxval}
  else
    let c2 := countSignalSyncptFences task.postfences c1.2
    if c2.1 ≠ 0 then
      {err := c2.1, task := {task with fence_counter := c2.2}, syncptMax := syncptMaxval}
    else
      let fc := c2.2
      let max1 := add32 syncptMaxval fc
      let pre := assignSignalFences syncptId max1 task.prefences (sub32 fc 1)
      let post := assignSignalFences syncptId max1 task.postfences pre.2
      {err := 0,
       task := {task with prefences := pre.1, postfences := post.1,
                          fence_counter := fc, fence := max1},
       syncptMax := max1}

/-! ### Auxiliary counting and arithmetic lemmas -/

/-- Number of occurrences of the handle `h` in a list of pinned or
    unpinned handles. -/
def countH (h : Nat) : List Nat → Nat
  | [] => 0
  | x :: xs => (if x = h then 1 else 0) + countH h xs

/-- The concrete target values carried by the syncpoint-backed signal
    fences of a fence list, in list order. -/
def sigValues (l : List NvdevFence) : List Nat :=
  (l.filter (fun f => isSignalSyncpt f)).map (fun f => f.syncpoint_value)

/-! ### Concrete instances used to evaluate the model -/

/-- A submit environment whose power/clock acquisition
    (`nvhost_module_busy`) fails with `-EFAULT`. -/
def envC1 : SubmitEnv :=
  {mode := SubmitMode.channel, moduleBusy := -14}

/-- A fill environment in which every pin attempt fails. -/
def envC2 : Env :=
  {pin := fun _ => none, syncptAddr := fun i => 4096 + 16 * i,
   fenceGet := fun _ => none, syncptValid := fun _ => true,
   profileStatusOffset := 640}

/-- A task with one semaphore-backed wait prefence and one
    semaphore-backed signal postfence. -/
def taskC2 : NvdlaTask :=
  {prefences := [{type := FenceType.semaphore, action := FenceAction.wait,
                  semaphore_handle := 7, semaphore_value := 3}],
   postfences := [{type := FenceType.semaphore, action := FenceAction.signal,
                   semaphore_handle := 8, semaphore_value := 4}]}

/-- A fill environment in which every non-null handle pins. -/
def envC3 : Env :=
  {pin := fun h => if h = 0 then none else some (1000 + 16 * h, 64),
   syncptAddr := fun i => 4096 + 16 * i,
   fenceGet := fun _ => none, syncptValid := fun _ => true,
   profileStatusOffset := 640}

/-- The round-trip example: one wait prefence on counter 5 with value 3
    and one syncpoint signal postfence. -/
def taskC3 : NvdlaTask :=
  {prefences := [{type := FenceType.syncpt, action := FenceAction.wait,
                  syncpoint_index := 5, syncpoint_value := 3}],
   postfences := [{type := FenceType.syncpt, action := FenceAction.signal}]}

/-- A channel-mode submit environment whose channel dispatch fails. -/
def envC4chan : SubmitEnv :=
  {mode := SubmitMode.channel, sendChannel := -5}

/-- An MMIO-mode submit environment whose MMIO dispatch fails. -/
def envC4mmio : SubmitEnv :=
  {mode := SubmitMode.mmio, sendMmio := -7}

/-- A fill environment in which pinning handle 5 fails, every other
    non-null handle pins, and the null handle never pins. -/
def envC5 : Env :=
  {pin := fun h => if h = 0 then none else if h = 5 then none
     else some (100 * h, 64),
   syncptAddr := fun i => 4096 + 16 * i,
   fenceGet := fun _ => none, syncptValid := fun _ => true,
   profileStatusOffset := 640}

/-- A task whose semaphore wait prefence (handle 9) pins successfully
    before the input-status fill fails on handle 5. -/
def taskC5 : NvdlaTask :=
  {prefences := [{type := FenceType.semaphore, action := FenceAction.wait,
                  semaphore_handle := 9, semaphore_value := 3}],
   in_task_status := [{handle := 5, status := 1}]}

/-- A queue with two in-flight tasks whose targets are 1 and 2 and whose
    syncpoint maximum is the last task's target. -/
def stC6 : QueueState :=
  {tasklist := [{fence := 1}, {fence := 2}], syncptMax := 2, syncptMin := 0}

/-- The last task of `stC6`. -/
def tlC6 : NvdlaTask := {fence := 2}

/-- A task carrying one syncpoint signal prefence and one sync-fd signal
    postfence, with `fence_counter` matching the two signals. -/
def taskC7 : NvdlaTask :=
  {prefences := [{type := FenceType.syncpt, action := FenceAction.signal}],
   postfences := [{type := FenceType.syncFd, action := FenceAction.signal}],
   fence_counter := 2}

/-- A task for the emulator path: two syncpoint signal fences. -/
def taskC7E : NvdlaTask :=
  {prefences := [{type := FenceType.syncpt, action := FenceAction.signal}],
   postfences := [{type := FenceType.syncpt, action := FenceAction.signal}]}

/-- A queue state with an empty task list. -/
def stC8 : QueueState := {}

/-- Three submitted tasks with non-decreasing targets 1, 2, 5. -/
def tasksC9 : List NvdlaTask := [{fence := 1}, {fence := 2}, {fence := 5}]

/-- A task carrying no syncpoint-backed signal fence
    (`fence_counter = 0`). -/
def taskC10 : NvdlaTask := {}

theorem countH_append (h : Nat) (a b : List Nat) :
    countH h (a ++ b) = countH h a + countH h b := by
  induction a with
  | nil => simp [countH]
  | cons x xs ih => simp [countH, ih]; omega

theorem add32_eq_add (a b : Nat) (hov : a + b < U32MOD) : add32 a b = a + b := by
  unfold add32
  exact Nat.mod_eq_of_lt hov

theorem sub32_eq_sub (a b : Nat) (hle : b ≤ a) (hlt : a < U32MOD) : sub32 a b = a - b := by
  unfold sub32
  have hb : b < U32MOD := lt_of_le_of_lt hle hlt
  rw [Nat.mod_eq_of_lt hlt, Nat.mod_eq_of_lt hb]
  have h1 : a + U32MOD - b = (a - b) + U32MOD := by omega
  rw [h1, Nat.add_mod_right]
  exact Nat.mod_eq_of_lt (by omega)

/-! ### Fill-loop lemmas -/

theorem countH_fillLoop_cons (h : Nat) (step : α → StepOut) (x : α) (l : List α) :
    countH h (fillLoop step (x :: l)).pins ≤
      countH h (step x).pins + countH h (fillLoop step l).pins := by
  simp only [fillLoop]
  split
  · omega
  · simp [countH_append]

theorem countH_fillLoop_le_filterMap (h : Nat) (step : α → StepOut) (fm : α → Option Nat)
    (hpt : ∀ x, countH h (step x).pins ≤ (if fm x = some h then 1 else 0)) :
    ∀ l : List α, countH h (fillLoop step l).pins ≤ countH h (l.filterMap fm) := by
  intro l
  induction l with
  | nil => simp [fillLoop, countH]
  | cons x xs ih =>
    have hc := countH_fillLoop_cons h step x xs
    have hx := hpt x
    rcases hfm : fm x with _ | y
    · simp only [List.filterMap_cons, hfm]
      rw [hfm] at hx
      simp at hx
      omega
    · simp only [List.filterMap_cons, hfm, countH]
      rw [hfm] at hx
      by_cases hy : y = h
      · simp [hy] at hx ⊢
        omega
      · simp [hy] at hx ⊢
        omega

theorem countH_two_loops_le_filterMap (h : Nat) (s1 s2 : α → StepOut)
    (fm : α → Option Nat)
    (hpt : ∀ x, countH h (s1 x).pins + countH h (s2 x).pins ≤
      (if fm x = some h then 1 else 0)) :
    ∀ l : List α,
      countH h (fillLoop s1 l).pins + countH h (fillLoop s2 l).pins ≤
        countH h (l.filterMap fm) := by
  intro l
  induction l with
  | nil => simp [fillLoop, countH]
  | cons x xs ih =>
    have hc1 := countH_fillLoop_cons h s1 x xs
    have hc2 := countH_fillLoop_cons h s2 x xs
    have hx := hpt x
    rcases hfm : fm x with _ | y
    · simp only [List.filterMap_cons, hfm]
      rw [hfm] at hx
      simp at hx
      omega
    · simp only [List.filterMap_cons, hfm, countH]
      rw [hfm] at hx
      by_cases hy : y = h
      · simp [hy] at hx ⊢
        omega
      · simp [hy] at hx ⊢
        omega

theorem countH_seqStep (h : Nat) (a b : StepOut) :
    countH h (seqStep a b).pins ≤ countH h a.pins + countH h b.pins := by
  simp only [seqStep]
  split
  · omega
  · simp [countH_append]

/-- On loop success every entry was processed and the emitted actions are
    exactly the per-entry actions concatenated in entry order. -/
theorem fillLoop_acts_of_err (step : α → StepOut) :
    ∀ l : List α, (fillLoop step l).err = 0 →
      (fillLoop step l).acts = (l.map (fun x => (step x).acts)).flatten := by
  intro l
  induction l with
  | nil => intro _; simp [fillLoop]
  | cons x xs ih =>
    intro hz
    simp only [fillLoop] at hz ⊢
    split at hz
    · omega
    · rename_i hnlt
      simp only [List.map_cons, List.flatten_cons]
      simp only at hz
      rw [ih hz]
      rw [if_neg hnlt]

theorem fillLoop_err_nonpos (step : α → StepOut) :
    ∀ l : List α, (fillLoop step l).err ≤ 0 := by
  intro l
  induction l with
  | nil => simp [fillLoop]
  | cons x xs ih =>
    simp only [fillLoop]
    split
    · exact le_of_lt (by assumption)
    · exact ih

theorem seqStep_err_of_eq_zero (a b : StepOut) (ha : a.err ≤ 0)
    (hz : (seqStep a b).err = 0) :
    a.err = 0 ∧ b.err = 0 ∧ (seqStep a b).acts = a.acts ++ b.acts := by
  simp only [seqStep] at hz ⊢
  split at hz
  · omega
  · rename_i hnlt
    simp only at hz
    refine ⟨by omega, hz, ?_⟩
    rw [if_neg hnlt]

/-! ### Per-step error-sign and pin-accounting facts -/

theorem syncFdWaitActions_error_nonpos (env : Env) :
    ∀ pts : List (Nat × Nat), ∀ e : Int,
      syncFdWaitActions env pts = Except.error e → e ≤ 0 := by
  intro pts
  induction pts with
  | nil => intro e he; simp [syncFdWaitActions] at he
  | cons p rest ih =>
    intro e he
    simp only [syncFdWaitActions] at he
    split at he
    · simp at he
      rw [← he]
      norm_num [EINVAL]
    · split at he
      · rename_i e1 he1
        simp at he
        rw [← he]
        exact ih e1 he1
      · simp at he

theorem wait_fence_err_nonpos (env : Env) (f : NvdevFence) :
    (nvdla_fill_wait_fence_action env f).err ≤ 0 := by
  unfold nvdla_fill_wait_fence_action
  rcases f.type with _ | _ | _ | _
  · simp
  · rcases hg : env.fenceGet f.sync_fd with _ | pts
    · simp
    · simp only
      rcases hw : syncFdWaitActions env pts with e | as
      · simpa using syncFdWaitActions_error_nonpos env pts e hw
      · simp
  · rcases hp : env.pin f.semaphore_handle with _ | ds <;> simp
  · rcases hp : env.pin f.semaphore_handle with _ | ds <;> simp

theorem signal_fence_err_nonpos (env : Env) (syncptId : Nat) (f : NvdevFence) :
    (nvdla_fill_signal_fence_action env syncptId f).err ≤ 0 := by
  unfold nvdla_fill_signal_fence_action
  rcases f.type with _ | _ | _ | _
  · simp
  · simp
  · rcases hp : env.pin f.semaphore_handle with _ | ds
    · simp
    · simp only
      split <;> simp
  · rcases hp : env.pin f.semaphore_handle with _ | ds <;> simp

theorem status_read_err_nonpos (env : Env) (s : NvdlaStatusNotify) :
    (nvdla_fill_taskstatus_read_action env s).err ≤ 0 := by
  unfold nvdla_fill_taskstatus_read_action
  rcases hp : env.pin s.handle with _ | ds <;> simp [EINVAL]

theorem status_write_err_nonpos (env : Env) (s : NvdlaStatusNotify) :
    (nvdla_fill_taskstatus_write_action env s).err ≤ 0 := by
  unfold nvdla_fill_taskstatus_write_action
  rcases hp : env.pin s.handle with _ | ds <;> simp [EINVAL]

theorem timestamp_err_nonpos (env : Env) (t : NvdlaMemHandle) :
    (nvdla_fill_timestamp_write_action env t).err ≤ 0 := by
  unfold nvdla_fill_timestamp_write_action
  rcases hp : env.pin t.handle with _ | ds <;> simp [EINVAL]

theorem waitStep_err_nonpos (env : Env) (f : NvdevFence) :
    (waitStep env f).err ≤ 0 := by
  unfold waitStep
  split
  · exact wait_fence_err_nonpos env f
  · simp

theorem signalPrefenceStep_err_nonpos (env : Env) (syncptId : Nat) (f : NvdevFence) :
    (signalPrefenceStep env syncptId f).err ≤ 0 := by
  unfold signalPrefenceStep
  split
  · exact signal_fence_err_nonpos env syncptId f
  · simp

theorem wait_fence_pins_bound (env : Env) (h : Nat) (hp0 : env.pin 0 = none)
    (f : NvdevFence) :
    countH h (nvdla_fill_wait_fence_action env f).pins ≤
      (if unmapSemFm f = some h then 1 else 0) := by
  unfold nvdla_fill_wait_fence_action
  rcases htype : f.type with _ | _ | _ | _
  · simp [countH]
  · rcases hg : env.fenceGet f.sync_fd with _ | pts
    · simp [countH]
    · simp only
      rcases hw : syncFdWaitActions env pts with e | as
      · simp [countH]
      · simp [countH]
  · rcases hp : env.pin f.semaphore_handle with _ | ds
    · simp [countH]
    · have hne : f.semaphore_handle ≠ 0 := by
        intro h0
        rw [h0, hp0] at hp
        exact Option.noConfusion hp
      simp only [countH, unmapSemFm, htype]
      simp [hne]
  · rcases hp : env.pin f.semaphore_handle with _ | ds
    · simp [countH]
    · have hne : f.semaphore_handle ≠ 0 := by
        intro h0
        rw [h0, hp0] at hp
        exact Option.noConfusion hp
      simp only [countH, unmapSemFm, htype]
      simp [hne]

theorem signal_fence_pins_bound (env : Env) (sid h : Nat) (hp0 : env.pin 0 = none)
    (f : NvdevFence) :
    countH h (nvdla_fill_signal_fence_action env sid f).pins ≤
      (if unmapSemFm f = some h then 1 else 0) := by
  unfold nvdla_fill_signal_fence_action
  rcases htype : f.type with _ | _ | _ | _
  · simp [countH]
  · simp [countH]
  · rcases hp : env.pin f.semaphore_handle with _ | ds
    · simp [countH]
    · have hne : f.semaphore_handle ≠ 0 := by
        intro h0
        rw [h0, hp0] at hp
        exact Option.noConfusion hp
      simp only
      split
      · simp only [countH, unmapSemFm, htype]
        simp [hne]
      · simp only [countH, unmapSemFm, htype]
        simp [hne]
  · rcases hp : env.pin f.semaphore_handle with _ | ds
    · simp [countH]
    · have hne : f.semaphore_handle ≠ 0 := by
        intro h0
        rw [h0, hp0] at hp
        exact Option.noConfusion hp
      simp only [countH, unmapSemFm, htype]
      simp [hne]

theorem wait_signal_pins_bound (env : Env) (sid h : Nat) (hp0 : env.pin 0 = none)
    (f : NvdevFence) :
    countH h (waitStep env f).pins + countH h (signalPrefenceStep env sid f).pins ≤
      (if unmapSemFm f = some h then 1 else 0) := by
  unfold waitStep signalPrefenceStep
  rcases hact : f.action with _ | _ | _
  · simpa [countH] using wait_fence_pins_bound env h hp0 f
  · simpa [countH] using signal_fence_pins_bound env sid h hp0 f
  · simpa [countH] using signal_fence_pins_bound env sid h hp0 f

theorem status_read_pins_bound (env : Env) (h : Nat) (hp0 : env.pin 0 = none)
    (s : NvdlaStatusNotify) :
    countH h (nvdla_fill_taskstatus_read_action env s).pins ≤
      (if unmapStatusFm s = some h then 1 else 0) := by
  unfold nvdla_fill_taskstatus_read_action
  rcases hp : env.pin s.handle with _ | ds
  · simp [countH]
  · have hne : s.handle ≠ 0 := by
      intro h0
      rw [h0, hp0] at hp
      exact Option.noConfusion hp
    simp only [countH, unmapStatusFm]
    simp [hne]

theorem status_write_pins_bound (env : Env) (h : Nat) (hp0 : env.pin 0 = none)
    (s : NvdlaStatusNotify) :
    countH h (nvdla_fill_taskstatus_write_action env s).pins ≤
      (if unmapStatusFm s = some h then 1 else 0) := by
  unfold nvdla_fill_taskstatus_write_action
  rcases hp : env.pin s.handle with _ | ds
  · simp [countH]
  · have hne : s.handle ≠ 0 := by
      intro h0
      rw [h0, hp0] at hp
      exact Option.noConfusion hp
    simp only [countH, unmapStatusFm]
    simp [hne]

theorem timestamp_pins_bound (env : Env) (h : Nat) (hp0 : env.pin 0 = none)
    (t : NvdlaMemHandle) :
    countH h (nvdla_fill_timestamp_write_action env t).pins ≤
      (if unmapTsFm t = some h then 1 else 0) := by
  unfold nvdla_fill_timestamp_write_action
  rcases hp : env.pin t.handle with _ | ds
  · simp [countH]
  · have hne : t.handle ≠ 0 := by
      intro h0
      rw [h0, hp0] at hp
      exact Option.noConfusion hp
    simp only [countH, unmapTsFm]
    simp [hne]

theorem mapMem_pins_bound (env : Env) (h : Nat) (m : NvdlaMemoryHandle) :
    countH h (mapMemStep env m).pins ≤ (if unmapMemFm m = some h then 1 else 0) := by
  unfold mapMemStep
  rcases htype : m.type with _ | _
  · simp [countH]
  · by_cases h0 : m.handle = 0
    · simp [h0, countH]
    · rcases hp : env.pin m.handle with _ | ds
      · simp [h0, hp, countH]
      · simp only [h0, hp]
        simp only [countH, unmapMemFm, htype]
        simp [h0]

theorem preactions_pins_bound (env : Env) (sid : Nat) (task : NvdlaTask) (h : Nat)
    (hp0 : env.pin 0 = none) :
    countH h (nvdla_fill_preactions env sid task).pins ≤
      countH h (task.prefences.filterMap unmapSemFm)
      + countH h (task.in_task_status.filterMap unmapStatusFm)
      + countH h (task.sof_task_status.filterMap unmapStatusFm)
      + countH h (task.sof_timestamps.filterMap unmapTsFm) := by
  have hpins : (nvdla_fill_preactions env sid task).pins =
      (seqStep (fillLoop (waitStep env) task.prefences)
        (seqStep (fillLoop (nvdla_fill_taskstatus_read_action env) task.in_task_status)
          (seqStep (fillLoop (nvdla_fill_taskstatus_write_action env) task.sof_task_status)
            (seqStep (fillLoop (nvdla_fill_timestamp_write_action env) task.sof_timestamps)
              (fillLoop (signalPrefenceStep env sid) task.prefences))))).pins := by
    unfold nvdla_fill_preactions
    dsimp only
    split
    · rfl
    · rfl
  rw [hpins]
  have b1 := countH_two_loops_le_filterMap h (waitStep env) (signalPrefenceStep env sid)
    unmapSemFm (fun f => wait_signal_pins_bound env sid h hp0 f) task.prefences
  have b2 := countH_fillLoop_le_filterMap h (nvdla_fill_taskstatus_read_action env)
    unmapStatusFm (fun s => status_read_pins_bound env h hp0 s) task.in_task_status
  have b3 := countH_fillLoop_le_filterMap h (nvdla_fill_taskstatus_write_action env)
    unmapStatusFm (fun s => status_write_pins_bound env h hp0 s) task.sof_task_status
  have b4 := countH_fillLoop_le_filterMap h (nvdla_fill_timestamp_write_action env)
    unmapTsFm (fun t => timestamp_pins_bound env h hp0 t) task.sof_timestamps
  have s1 := countH_seqStep h
    (fillLoop (nvdla_fill_timestamp_write_action env) task.sof_timestamps)
    (fillLoop (signalPrefenceStep env sid) task.prefences)
  have s2 := countH_seqStep h
    (fillLoop (nvdla_fill_taskstatus_write_action env) task.sof_task_status)
    (seqStep (fillLoop (nvdla_fill_timestamp_write_action env) task.sof_timestamps)
      (fillLoop (signalPrefenceStep env sid) task.prefences))
  have s3 := countH_seqStep h
    (fillLoop (nvdla_fill_taskstatus_read_action env) task.in_task_status)
    (seqStep (fillLoop (nvdla_fill_taskstatus_write_action env) task.sof_task_status)
      (seqStep (fillLoop (nvdla_fill_timestamp_write_action env) task.sof_timestamps)
        (fillLoop (signalPrefenceStep env sid) task.prefences)))
  have s4 := countH_seqStep h
    (fillLoop (waitStep env) task.prefences)
    (seqStep (fillLoop (nvdla_fill_taskstatus_read_action env) task.in_task_status)
      (seqStep (fillLoop (nvdla_fill_taskstatus_write_action env) task.sof_task_status)
        (seqStep (fillLoop (nvdla_fill_timestamp_write_action env) task.sof_timestamps)
          (fillLoop (signalPrefenceStep env sid) task.prefences))))
  omega

theorem postactions_pins_bound (env : Env) (sid : Nat) (task : NvdlaTask) (h : Nat)
    (hp0 : env.pin 0 = none) :
    countH h (nvdla_fill_postactions env sid task).pins ≤
      countH h (task.postfences.filterMap unmapSemFm)
      + countH h (task.eof_task_status.filterMap unmapStatusFm)
      + countH h (task.eof_timestamps.filterMap unmapTsFm) := by
  have hpins : (nvdla_fill_postactions env sid task).pins =
      (seqStep {acts := [Action.writeTaskStatus
            (task.task_desc_pa + env.profileStatusOffset) 0]}
        (seqStep (fillLoop (nvdla_fill_timestamp_write_action env) task.eof_timestamps)
          (seqStep (fillLoop (nvdla_fill_taskstatus_write_action env) task.eof_task_status)
            (fillLoop (fun f => nvdla_fill_signal_fence_action env sid f)
              task.postfences)))).pins := by
    unfold nvdla_fill_postactions
    dsimp only
    split
    · rfl
    · rfl
  rw [hpins]
  have b1 := countH_fillLoop_le_filterMap h
    (fun f => nvdla_fill_signal_fence_action env sid f)
    unmapSemFm (fun f => signal_fence_pins_bound env sid h hp0 f) task.postfences
  have b2 := countH_fillLoop_le_filterMap h (nvdla_fill_taskstatus_write_action env)
    unmapStatusFm (fun s => status_write_pins_bound env h hp0 s) task.eof_task_status
  have b3 := countH_fillLoop_le_filterMap h (nvdla_fill_timestamp_write_action env)
    unmapTsFm (fun t => timestamp_pins_bound env h hp0 t) task.eof_timestamps
  have s1 := countH_seqStep h
    (fillLoop (nvdla_fill_taskstatus_write_action env) task.eof_task_status)
    (fillLoop (fun f => nvdla_fill_signal_fence_action env sid f) task.postfences)
  have s2 := countH_seqStep h
    (fillLoop (nvdla_fill_timestamp_write_action env) task.eof_timestamps)
    (seqStep (fillLoop (nvdla_fill_taskstatus_write_action env) task.eof_task_status)
      (fillLoop (fun f => nvdla_fill_signal_fence_action env sid f) task.postfences))
  have s3 := countH_seqStep h
    ({acts := [Action.writeTaskStatus
        (task.task_desc_pa + env.profileStatusOffset) 0]} : StepOut)
    (seqStep (fillLoop (nvdla_fill_timestamp_write_action env) task.eof_timestamps)
      (seqStep (fillLoop (nvdla_fill_taskstatus_write_action env) task.eof_task_status)
        (fillLoop (fun f => nvdla_fill_signal_fence_action env sid f) task.postfences)))
  simp only [countH] at s3
  omega

theorem mapmem_pins_bound (env : Env) (task : NvdlaTask) (h : Nat) :
    countH h (nvdla_map_task_memory env task).pins ≤
      countH h (task.memory_handles.filterMap unmapMemFm) := by
  unfold nvdla_map_task_memory
  exact countH_fillLoop_le_filterMap h (mapMemStep env) unmapMemFm
    (fun m => mapMem_pins_bound env h m) task.memory_handles

/-! ### Claim theorems -/

/-- C5: if `nvdla_fill_task_desc` fails at any stage — pre-action fill,
    post-action fill, or address-list mapping — then every buffer and
    fence resource pinned for the task up to that point is unpinned by
    the `nvdla_unmap_task_memory` unwind before the error is returned
    (occurrence-counted per handle, for any environment in which the
    null handle cannot be pinned), so no pins leak and no submittable
    descriptor results. -/
theorem claim_C5_fill_desc_unwinds_pins (env : Env) (sid : Nat) (task : NvdlaTask)
    (hp0 : env.pin 0 = none)
    (hfail : (nvdla_fill_task_desc env sid task).err ≠ 0) :
    ∀ h : Nat,
      countH h (nvdla_fill_task_desc env sid task).pins ≤
        countH h (nvdla_fill_task_desc env sid task).unpins := by
  intro h
  have hpre := preactions_pins_bound env sid task h hp0
  have hpost := postactions_pins_bound env sid task h hp0
  have hmap := mapmem_pins_bound env task h
  have hun : countH h (nvdla_unmap_task_memory task) =
      countH h (task.memory_handles.filterMap unmapMemFm)
      + countH h (task.prefences.filterMap unmapSemFm)
      + countH h (task.in_task_status.filterMap unmapStatusFm)
      + countH h (task.postfences.filterMap unmapSemFm)
      + countH h (task.sof_task_status.filterMap unmapStatusFm)
      + countH h (task.eof_task_status.filterMap unmapStatusFm)
      + countH h (task.sof_timestamps.filterMap unmapTsFm)
      + countH h (task.eof_timestamps.filterMap unmapTsFm) := by
    unfold nvdla_unmap_task_memory
    simp only [countH_append]
  unfold nvdla_fill_task_desc at hfail ⊢
  dsimp only at hfail ⊢
  by_cases h1 : (nvdla_fill_preactions env sid task).err ≠ 0
  · rw [if_pos h1]
    dsimp only
    rw [hun]
    omega
  · rw [if_neg h1] at hfail ⊢
    by_cases h2 : (nvdla_fill_postactions env sid task).err ≠ 0
    · rw [if_pos h2]
      dsimp only
      rw [countH_append, hun]
      omega
    · rw [if_neg h2] at hfail ⊢
      by_cases h3 : (nvdla_map_task_memory env task).err ≠ 0
      · rw [if_pos h3]
        dsimp only
        rw [countH_append, countH_append, hun]
        omega
      · rw [if_neg h3] at hfail
        exact absurd rfl hfail

/-- C3: on success the action-list builder lays out the pre-action list
    as wait-type prefences, then input task-status checks, then
    start-of-frame status writes, then start-of-frame timestamp writes,
    then signal-type prefences, terminated by `ACTION_TERMINATE`; and the
    post-action list as the internal completion-status write first, then
    end-of-frame timestamp writes, then end-of-frame status writes, then
    postfence signals, terminated by `ACTION_TERMINATE` — each segment
    being the per-entry actions concatenated in entry order. -/
theorem claim_C3_action_list_ordering (env : Env) (sid : Nat) (task : NvdlaTask)
    (hpre : (nvdla_fill_preactions env sid task).err = 0)
    (hpost : (nvdla_fill_postactions env sid task).err = 0) :
    (nvdla_fill_preactions env sid task).acts =
      (task.prefences.map (fun f => (waitStep env f).acts)).flatten
      ++ (task.in_task_status.map
            (fun s => (nvdla_fill_taskstatus_read_action env s).acts)).flatten
      ++ (task.sof_task_status.map
            (fun s => (nvdla_fill_taskstatus_write_action env s).acts)).flatten
      ++ (task.sof_timestamps.map
            (fun t => (nvdla_fill_timestamp_write_action env t).acts)).flatten
      ++ (task.prefences.map (fun f => (signalPrefenceStep env sid f).acts)).flatten
      ++ [Action.terminate]
    ∧ (nvdla_fill_postactions env sid task).acts =
      [Action.writeTaskStatus (task.task_desc_pa + env.profileStatusOffset) 0]
      ++ (task.eof_timestamps.map
            (fun t => (nvdla_fill_timestamp_write_action env t).acts)).flatten
      ++ (task.eof_task_status.map
            (fun s => (nvdla_fill_taskstatus_write_action env s).acts)).flatten
      ++ (task.postfences.map
            (fun f => (nvdla_fill_signal_fence_action env sid f).acts)).flatten
      ++ [Action.terminate] := by
  constructor
  · unfold nvdla_fill_preactions at hpre ⊢
    dsimp only at hpre ⊢
    set A := fillLoop (waitStep env) task.prefences
    set C := fillLoop (nvdla_fill_taskstatus_read_action env) task.in_task_status
    set E := fillLoop (nvdla_fill_taskstatus_write_action env) task.sof_task_status
    set G := fillLoop (nvdla_fill_timestamp_write_action env) task.sof_timestamps
    set H := fillLoop (signalPrefenceStep env sid) task.prefences
    have ho : (seqStep A (seqStep C (seqStep E (seqStep G H)))).err = 0 := by
      split at hpre
      · exact hpre
      · exact hpre
    rw [if_neg (by omega : ¬ (seqStep A (seqStep C (seqStep E (seqStep G H)))).err < 0)]
    dsimp only
    obtain ⟨hA0, hB0, hActs1⟩ :=
      seqStep_err_of_eq_zero A (seqStep C (seqStep E (seqStep G H)))
        (fillLoop_err_nonpos _ _) ho
    obtain ⟨hC0, hD0, hActs2⟩ :=
      seqStep_err_of_eq_zero C (seqStep E (seqStep G H)) (fillLoop_err_nonpos _ _) hB0
    obtain ⟨hE0, hF0, hActs3⟩ :=
      seqStep_err_of_eq_zero E (seqStep G H) (fillLoop_err_nonpos _ _) hD0
    obtain ⟨hG0, hH0, hActs4⟩ :=
      seqStep_err_of_eq_zero G H (fillLoop_err_nonpos _ _) hF0
    rw [hActs1, hActs2, hActs3, hActs4]
    rw [fillLoop_acts_of_err _ _ hA0, fillLoop_acts_of_err _ _ hC0,
        fillLoop_acts_of_err _ _ hE0, fillLoop_acts_of_err _ _ hG0,
        fillLoop_acts_of_err _ _ hH0]
    simp [List.append_assoc]
  · unfold nvdla_fill_postactions at hpost ⊢
    dsimp only at hpost ⊢
    set F0 : StepOut :=
      {acts := [Action.writeTaskStatus (task.task_desc_pa + env.profileStatusOffset) 0]}
    set G := fillLoop (nvdla_fill_timestamp_write_action env) task.eof_timestamps
    set E := fillLoop (nvdla_fill_taskstatus_write_action env) task.eof_task_status
    set H := fillLoop (fun f => nvdla_fill_signal_fence_action env sid f) task.postfences
    have ho : (seqStep F0 (seqStep G (seqStep E H))).err = 0 := by
      split at hpost
      · exact hpost
      · exact hpost
    rw [if_neg (by omega : ¬ (seqStep F0 (seqStep G (seqStep E H))).err < 0)]
    dsimp only
    obtain ⟨hF00, hB0, hActs1⟩ :=
      seqStep_err_of_eq_zero F0 (seqStep G (seqStep E H)) (le_refl (0 : Int)) ho
    obtain ⟨hG0, hD0, hActs2⟩ :=
      seqStep_err_of_eq_zero G (seqStep E H) (fillLoop_err_nonpos _ _) hB0
    obtain ⟨hE0, hH0, hActs3⟩ :=
      seqStep_err_of_eq_zero E H (fillLoop_err_nonpos _ _) hD0
    rw [hActs1, hActs2, hActs3]
    rw [fillLoop_acts_of_err _ _ hG0, fillLoop_acts_of_err _ _ hE0,
        fillLoop_acts_of_err _ _ hH0]
    simp [List.append_assoc]

/-! ### Completion-scan lemmas -/

theorem scan_of_none_expired (m : Nat) (l : List NvdlaTask)
    (h : ∀ t ∈ l, nvhost_syncpt_is_expired m t.fence = false) :
    nvdla_queue_scan m l = ([], l) := by
  induction l with
  | nil => simp [nvdla_queue_scan]
  | cons t ts ih =>
    have ht := h t (by simp)
    have hts : ∀ x ∈ ts, nvhost_syncpt_is_expired m x.fence = false :=
      fun x hx => h x (by simp [hx])
    simp [nvdla_queue_scan, ih hts, ht]

theorem scan_of_all_expired (m : Nat) (l : List NvdlaTask)
    (h : ∀ t ∈ l, nvhost_syncpt_is_expired m t.fence = true) :
    nvdla_queue_scan m l = (l, []) := by
  induction l with
  | nil => simp [nvdla_queue_scan]
  | cons t ts ih =>
    have ht := h t (by simp)
    have hts : ∀ x ∈ ts, nvhost_syncpt_is_expired m x.fence = true :=
      fun x hx => h x (by simp [hx])
    simp [nvdla_queue_scan, ih hts, ht]

theorem scan_append_of_sorted (m : Nat) (l : List NvdlaTask)
    (hs : List.Pairwise (fun a b => a.fence ≤ b.fence) l) :
    (nvdla_queue_scan m l).1 ++ (nvdla_queue_scan m l).2 = l := by
  induction l with
  | nil => simp [nvdla_queue_scan]
  | cons t ts ih =>
    rw [List.pairwise_cons] at hs
    obtain ⟨hle, hts⟩ := hs
    by_cases ht : nvhost_syncpt_is_expired m t.fence = true
    · simp [nvdla_queue_scan, ht, ih hts]
    · have hnone : ∀ x ∈ ts, nvhost_syncpt_is_expired m x.fence = false := by
        intro x hx
        have hxf := hle x hx
        unfold nvhost_syncpt_is_expired at ht ⊢
        simp only [Bool.not_eq_true, decide_eq_false_iff_not] at ht ⊢
        omega
      simp [nvdla_queue_scan, ht, scan_of_none_expired m ts hnone]

/-- C9: under a monotone counter with non-decreasing per-task targets,
    the completion notifier reclaims a prefix of the task list — it
    removes the completed tasks in exactly submission order, never
    skipping or reordering — and releases exactly one power reference
    per reclaimed task in a single batched `nvhost_module_idle_mult`
    call after the scan. -/
theorem claim_C9_fifo_completion (m : Nat) (tasks : List NvdlaTask)
    (hs : List.Pairwise (fun a b => a.fence ≤ b.fence) tasks) :
    (nvdla_queue_update m tasks).completed ++ (nvdla_queue_update m tasks).tasklist = tasks
    ∧ (nvdla_queue_update m tasks).completed <+: tasks
    ∧ (nvdla_queue_update m tasks).idleMultCalls =
        [(nvdla_queue_update m tasks).completed.length] := by
  have happ := scan_append_of_sorted m tasks hs
  refine ⟨happ, ⟨(nvdla_queue_update m tasks).tasklist, ?_⟩, rfl⟩
  exact happ

/-- C8: abort on a queue with an empty task list returns success at once
    with no side effects — no power reference, no flush command, no
    counter change, no list change — and a second abort on the resulting
    state succeeds the same way (idempotence). -/
theorem claim_C8_abort_empty_idempotent (busy : Int) (send : Nat → Int)
    (st : QueueState) (he : st.tasklist = []) :
    (nvdla_queue_abort_op busy send st).err = 0
    ∧ (nvdla_queue_abort_op busy send st).tasklist = st.tasklist
    ∧ (nvdla_queue_abort_op busy send st).syncptMin = st.syncptMin
    ∧ (nvdla_queue_abort_op busy send st).syncptMax = st.syncptMax
    ∧ (nvdla_queue_abort_op busy send st).powerAcquired = false
    ∧ (nvdla_queue_abort_op busy send st).powerIdleCalls = 0
    ∧ (nvdla_queue_abort_op busy send st).flushCmdsSent = 0
    ∧ (nvdla_queue_abort_op busy send
        {tasklist := (nvdla_queue_abort_op busy send st).tasklist,
         syncptMax := (nvdla_queue_abort_op busy send st).syncptMax,
         syncptMin := (nvdla_queue_abort_op busy send st).syncptMin}).err = 0
    ∧ (nvdla_queue_abort_op busy send
        {tasklist := (nvdla_queue_abort_op busy send st).tasklist,
         syncptMax := (nvdla_queue_abort_op busy send st).syncptMax,
         syncptMin := (nvdla_queue_abort_op busy send st).syncptMin}).powerAcquired = false
    ∧ (nvdla_queue_abort_op busy send
        {tasklist := (nvdla_queue_abort_op busy send st).tasklist,
         syncptMax := (nvdla_queue_abort_op busy send st).syncptMax,
         syncptMin := (nvdla_queue_abort_op busy send st).syncptMin}).flushCmdsSent = 0 := by
  simp [nvdla_queue_abort_op, he]

/-- C6: on a successful abort of a non-empty queue (power acquired,
    flush accepted) the hardware counter is forcibly advanced to the
    syncpoint maximum, which equals the last-submitted task's target, so
    every still-queued task's target is reached and a following
    completion-notifier pass reclaims the whole task list. -/
theorem claim_C6_abort_completes_all (busy : Int) (send : Nat → Int)
    (st : QueueState) (tl : NvdlaTask)
    (hne : st.tasklist ≠ [])
    (hlast : st.tasklist.getLast? = some tl)
    (hfl : tl.fence = st.syncptMax)
    (hall : ∀ t ∈ st.tasklist, t.fence ≤ st.syncptMax)
    (hok : (nvdla_queue_abort_op busy send st).err = 0) :
    (nvdla_queue_abort_op busy send st).syncptMin = tl.fence
    ∧ (nvdla_queue_abort_op busy send st).tasklist = st.tasklist
    ∧ (nvdla_queue_update (nvdla_queue_abort_op busy send st).syncptMin
        (nvdla_queue_abort_op busy send st).tasklist).completed = st.tasklist
    ∧ (nvdla_queue_update (nvdla_queue_abort_op busy send st).syncptMin
        (nvdla_queue_abort_op busy send st).tasklist).tasklist = [] := by
  unfold nvdla_queue_abort_op at hok ⊢
  rw [if_neg hne] at hok ⊢
  by_cases hb : busy ≠ 0
  · rw [if_pos hb] at hok
    exact absurd hok hb
  · rw [if_neg hb] at hok ⊢
    dsimp only at hok ⊢
    by_cases hfr : (nvdla_abort_flush_loop send 0 NVDLA_ABORT_RETRY_COUNT).1 ≠ 0
    · rw [if_pos hfr] at hok
      exact absurd hok hfr
    · rw [if_neg hfr] at hok ⊢
      dsimp only
      have hexp : ∀ t ∈ st.tasklist,
          nvhost_syncpt_is_expired st.syncptMax t.fence = true := by
        intro t htmem
        have := hall t htmem
        unfold nvhost_syncpt_is_expired
        simpa using this
      have hscan := scan_of_all_expired st.syncptMax st.tasklist hexp
      refine ⟨hfl.symm, rfl, ?_, ?_⟩
      · simp [nvdla_queue_update, hscan]
      · simp [nvdla_queue_update, hscan]

/-! ### Signal-fence assignment lemmas -/

theorem isSignalSyncpt_update (f : NvdevFence) (sid v : Nat) :
    isSignalSyncpt {f with syncpoint_index := sid, syncpoint_value := v} =
      isSignalSyncpt f := rfl

theorem assign_of_no_sig (sid tf : Nat) :
    ∀ (l : List NvdevFence) (c : Nat), (∀ f ∈ l, isSignalSyncpt f = false) →
      assignSignalFences sid tf l c = (l, c) := by
  intro l
  induction l with
  | nil => intro c _; simp [assignSignalFences]
  | cons f fs ih =>
    intro c h
    have hf := h f (by simp)
    have hfs : ∀ x ∈ fs, isSignalSyncpt x = false := fun x hx => h x (by simp [hx])
    simp [assignSignalFences, hf, ih c hfs]

theorem assign_append (sid tf : Nat) (l1 l2 : List NvdevFence) :
    ∀ c : Nat,
      assignSignalFences sid tf (l1 ++ l2) c =
        ((assignSignalFences sid tf l1 c).1 ++
          (assignSignalFences sid tf l2 (assignSignalFences sid tf l1 c).2).1,
         (assignSignalFences sid tf l2 (assignSignalFences sid tf l1 c).2).2) := by
  induction l1 with
  | nil => intro c; simp [assignSignalFences]
  | cons f fs ih =>
    intro c
    by_cases hf : isSignalSyncpt f = true
    · simp [assignSignalFences, hf, ih]
    · simp only [Bool.not_eq_true] at hf
      simp [assignSignalFences, hf, ih]

theorem sigValues_cons_sig (f : NvdevFence) (l : List NvdevFence)
    (hf : isSignalSyncpt f = true) :
    sigValues (f :: l) = f.syncpoint_value :: sigValues l := by
  simp [sigValues, hf]

theorem sigValues_cons_notsig (f : NvdevFence) (l : List NvdevFence)
    (hf : isSignalSyncpt f = false) :
    sigValues (f :: l) = sigValues l := by
  simp [sigValues, hf]

theorem range_map_shift (tf c n : Nat) :
    (tf - c) :: (List.range n).map (fun j => tf - (c - 1 - j)) =
      (List.range (n + 1)).map (fun j => tf - (c - j)) := by
  rw [List.range_succ_eq_map, List.map_cons, List.map_map]
  have hfun : ((fun j => tf - (c - j)) ∘ Nat.succ) = (fun j => tf - (c - 1 - j)) := by
    funext j
    show tf - (c - (j + 1)) = tf - (c - 1 - j)
    omega
  rw [hfun]
  simp

theorem assign_values (sid tf : Nat) :
    ∀ (l : List NvdevFence) (c : Nat),
      (l.filter (fun f => isSignalSyncpt f)).length ≤ c + 1 →
      c ≤ tf → tf < U32MOD →
      sigValues (assignSignalFences sid tf l c).1 =
        (List.range (l.filter (fun f => isSignalSyncpt f)).length).map
          (fun j => tf - (c - j)) := by
  intro l
  induction l with
  | nil => intro c _ _ _; simp [assignSignalFences, sigValues]
  | cons f fs ih =>
    intro c hlen hc htf
    by_cases hf : isSignalSyncpt f = true
    · have hfilter : (f :: fs).filter (fun f => isSignalSyncpt f) =
          f :: fs.filter (fun f => isSignalSyncpt f) := by simp [hf]
      rw [hfilter] at hlen ⊢
      simp only [List.length_cons] at hlen ⊢
      simp only [assignSignalFences, hf, if_pos]
      rw [sigValues_cons_sig _ _ (by rw [isSignalSyncpt_update]; exact hf)]
      dsimp only
      have hv : sub32 tf c = tf - c := sub32_eq_sub tf c hc htf
      rcases hk : (fs.filter (fun f => isSignalSyncpt f)).length with _ | k
      · have hnil : fs.filter (fun f => isSignalSyncpt f) = [] :=
          List.length_eq_zero.mp hk
        have hnos : ∀ x ∈ fs, isSignalSyncpt x = false := by
          intro x hx
          by_contra hxx
          simp only [Bool.not_eq_false] at hxx
          have : x ∈ fs.filter (fun f => isSignalSyncpt f) :=
            List.mem_filter.mpr ⟨hx, hxx⟩
          rw [hnil] at this
          exact absurd this (List.not_mem_nil x)
        rw [assign_of_no_sig sid tf fs (sub32 c 1) hnos]
        have hsv : sigValues fs = [] := by
          simp [sigValues, hnil]
        rw [hsv, hv, ← range_map_shift tf c 0]
        simp
      · have hc1 : 1 ≤ c := by omega
        have hcM : c < U32MOD := by omega
        have hsub1 : sub32 c 1 = c - 1 := sub32_eq_sub c 1 hc1 hcM
        rw [hsub1, ih (c - 1) (by omega) (by omega) htf, hk, hv]
        exact range_map_shift tf c (k + 1)
    · simp only [Bool.not_eq_true] at hf
      have hfilter : (f :: fs).filter (fun f => isSignalSyncpt f) =
          fs.filter (fun f => isSignalSyncpt f) := by simp [hf]
      rw [hfilter] at hlen ⊢
      simp only [assignSignalFences, hf]
      simp only [Bool.false_eq_true, if_false]
      rw [sigValues_cons_notsig _ _ hf]
      exact ih c hlen hc htf

theorem countSig_eq (l : List NvdevFence) :
    ∀ acc : Nat, (countSignalSyncptFences l acc).1 = 0 →
      (countSignalSyncptFences l acc).2 =
        acc + (l.filter (fun f => isSignalSyncpt f)).length := by
  induction l with
  | nil => intro acc _; simp [countSignalSyncptFences]
  | cons f fs ih =>
    intro acc h
    by_cases ha : f.action = FenceAction.signal
    · rcases htype : f.type with _ | _ | _ | _
      · have hsig : isSignalSyncpt f = true := by
          simp [isSignalSyncpt, ha, htype]
        simp only [countSignalSyncptFences, ha, htype] at h ⊢
        simp only [ne_eq, not_true_eq_false, if_false] at h ⊢
        rw [ih (acc + 1) h]
        simp [hsig]
        omega
      · have hsig : isSignalSyncpt f = true := by
          simp [isSignalSyncpt, ha, htype]
        simp only [countSignalSyncptFences, ha, htype] at h ⊢
        simp only [ne_eq, not_true_eq_false, if_false] at h ⊢
        rw [ih (acc + 1) h]
        simp [hsig]
        omega
      · simp only [countSignalSyncptFences, ha, htype] at h
        simp only [ne_eq, not_true_eq_false, if_false] at h
        exact absurd h (by norm_num [EINVAL])
      · simp only [countSignalSyncptFences, ha, htype] at h
        simp only [ne_eq, not_true_eq_false, if_false] at h
        exact absurd h (by norm_num [EINVAL])
    · have hsig : isSignalSyncpt f = false := by
        simp [isSignalSyncpt, ha]
      simp only [countSignalSyncptFences, ha, ne_eq, not_false_eq_true, if_true] at h ⊢
      rw [ih acc h]
      simp [hsig]

theorem assign_pair_values (sid tf : Nat) (l1 l2 : List NvdevFence) (k c : Nat)
    (hk : ((l1 ++ l2).filter (fun f => isSignalSyncpt f)).length = k)
    (htfM : tf < U32MOD)
    (hc : k ≠ 0 → c = k - 1 ∧ c ≤ tf) :
    sigValues ((assignSignalFences sid tf l1 c).1 ++
        (assignSignalFences sid tf l2 (assignSignalFences sid tf l1 c).2).1) =
      (List.range k).map (fun j => tf - (k - 1 - j)) := by
  have h1 : (assignSignalFences sid tf l1 c).1 ++
      (assignSignalFences sid tf l2 (assignSignalFences sid tf l1 c).2).1 =
      (assignSignalFences sid tf (l1 ++ l2) c).1 := by
    rw [assign_append]
  rw [h1]
  by_cases hkz : k = 0
  · subst hkz
    have hnil : (l1 ++ l2).filter (fun f => isSignalSyncpt f) = [] :=
      List.length_eq_zero.mp hk
    have hnos : ∀ x ∈ l1 ++ l2, isSignalSyncpt x = false := by
      intro x hx
      by_contra hxx
      simp only [Bool.not_eq_false] at hxx
      have : x ∈ (l1 ++ l2).filter (fun f => isSignalSyncpt f) :=
        List.mem_filter.mpr ⟨hx, hxx⟩
      rw [hnil] at this
      exact absurd this (List.not_mem_nil x)
    rw [assign_of_no_sig sid tf (l1 ++ l2) c hnos]
    simp [sigValues, hnil]
  · obtain ⟨hceq, hcle⟩ := hc hkz
    subst hceq
    rw [assign_values sid tf (l1 ++ l2) (k - 1) (by rw [hk]; omega) hcle htfM]
    rw [hk]

theorem get_signal_fences_values (maxval sid : Nat) (task : NvdlaTask) (k : Nat)
    (hk : k = ((task.prefences ++ task.postfences).filter
      (fun f => isSignalSyncpt f)).length)
    (hfc : task.fence_counter = k)
    (hov : maxval + k < U32MOD) :
    sigValues ((nvdla_get_signal_fences maxval sid task).task.prefences ++
        (nvdla_get_signal_fences maxval sid task).task.postfences) =
      (List.range k).map
        (fun j => (nvdla_get_signal_fences maxval sid task).taskFence - (k - 1 - j)) := by
  unfold nvdla_get_signal_fences
  dsimp only
  by_cases hkz : k = 0
  · rw [hfc, hkz, if_pos rfl]
    have htfM : add32 maxval 1 < U32MOD := by
      unfold add32
      exact Nat.mod_lt _ (by norm_num [U32MOD])
    rw [hkz] at hk
    exact assign_pair_values sid (add32 maxval 1) task.prefences task.postfences 0
      (sub32 1 1) hk.symm htfM (by intro hzz; exact absurd rfl hzz)
  · rw [hfc, if_neg hkz]
    have htf : add32 maxval k = maxval + k := add32_eq_add maxval k hov
    have hsub : sub32 k 1 = k - 1 := by
      refine sub32_eq_sub k 1 (by omega) (by omega)
    exact assign_pair_values sid (add32 maxval k) task.prefences task.postfences k
      (sub32 k 1) hk.symm (by omega) (fun _ => ⟨hsub, by omega⟩)

theorem emulator_submit_values (maxval sid : Nat) (task : NvdlaTask) (k : Nat)
    (hk : k = ((task.prefences ++ task.postfences).filter
      (fun f => isSignalSyncpt f)).length)
    (hov : maxval + k < U32MOD)
    (hs : (nvdla_emulator_submit maxval sid task).err = 0) :
    sigValues ((nvdla_emulator_submit maxval sid task).task.prefences ++
        (nvdla_emulator_submit maxval sid task).task.postfences) =
      (List.range k).map
        (fun j => (nvdla_emulator_submit maxval sid task).task.fence - (k - 1 - j)) := by
  unfold nvdla_emulator_submit at hs ⊢
  dsimp only at hs ⊢
  by_cases h1 : (countSignalSyncptFences task.prefences 0).1 ≠ 0
  · rw [if_pos h1] at hs
    exact absurd hs h1
  · rw [if_neg h1] at hs ⊢
    push_neg at h1
    by_cases h2 : (countSignalSyncptFences task.postfences
        (countSignalSyncptFences task.prefences 0).2).1 ≠ 0
    · rw [if_pos h2] at hs
      exact absurd hs h2
    · rw [if_neg h2] at hs ⊢
      push_neg at h2
      dsimp only
      have hc1 := countSig_eq task.prefences 0 h1
      have hc2 := countSig_eq task.postfences
        (countSignalSyncptFences task.prefences 0).2 h2
      have hfck : (countSignalSyncptFences task.postfences
          (countSignalSyncptFences task.prefences 0).2).2 = k := by
        rw [hc2, hc1, hk, List.filter_append, List.length_append]
        omega
      rw [hfck]
      by_cases hkz : k = 0
      · have htfM : add32 maxval k < U32MOD := by
          unfold add32
          exact Nat.mod_lt _ (by norm_num [U32MOD])
        exact assign_pair_values sid (add32 maxval k) task.prefences task.postfences k
          (sub32 k 1) hk.symm htfM (fun hzz => absurd hkz hzz)
      · have htf : add32 maxval k = maxval + k := add32_eq_add maxval k hov
        have hsub : sub32 k 1 = k - 1 := by
          refine sub32_eq_sub k 1 (by omega) (by omega)
        exact assign_pair_values sid (add32 maxval k) task.prefences task.postfences k
          (sub32 k 1) hk.symm (by omega) (fun _ => ⟨hsub, by omega⟩)

/-- C7: the signal-fence value assignment of `nvdla_get_signal_fences`
    (given that the task's `fence_counter` matches its number of
    syncpoint-backed signal fences, as established by descriptor fill or
    by the emulator count) and of `nvdla_emulator_submit` (on success)
    assigns the counter reservation back-to-front: the last
    syncpoint-type signal fence receives the task's fence value and the
    `j`-th of `k` receives `fence − (k − 1 − j)`, i.e. the fence minus
    the number of signals assigned after it. -/
theorem claim_C7_signal_fence_values (maxval sid : Nat) (task : NvdlaTask) (k : Nat)
    (maxvalE sidE : Nat) (taskE : NvdlaTask) (kE : Nat)
    (hk : k = ((task.prefences ++ task.postfences).filter
      (fun f => isSignalSyncpt f)).length)
    (hfc : task.fence_counter = k)
    (hov : maxval + k < U32MOD)
    (hkE : kE = ((taskE.prefences ++ taskE.postfences).filter
      (fun f => isSignalSyncpt f)).length)
    (hovE : maxvalE + kE < U32MOD)
    (hsE : (nvdla_emulator_submit maxvalE sidE taskE).err = 0) :
    sigValues ((nvdla_get_signal_fences maxval sid task).task.prefences ++
        (nvdla_get_signal_fences maxval sid task).task.postfences) =
      (List.range k).map
        (fun j => (nvdla_get_signal_fences maxval sid task).taskFence - (k - 1 - j))
    ∧ sigValues ((nvdla_emulator_submit maxvalE sidE taskE).task.prefences ++
        (nvdla_emulator_submit maxvalE sidE taskE).task.postfences) =
      (List.range kE).map
        (fun j => (nvdla_emulator_submit maxvalE sidE taskE).task.fence - (kE - 1 - j)) :=
  ⟨get_signal_fences_values maxval sid task k hk hfc hov,
   emulator_submit_values maxvalE sidE taskE kE hkE hovE hsE⟩

/-- C10: `nvdla_get_signal_fences` forces a zero `fence_counter` to one,
    so every task consumes at least one hardware-counter increment and
    its completion target `task_fence = maxval + fence_counter` is
    strictly greater than any previous task's target (which is at most
    the current syncpoint maximum). -/
theorem claim_C10_zero_fence_counter_forced (maxval sid prevFence : Nat)
    (task : NvdlaTask)
    (hprev : prevFence ≤ maxval)
    (hov : maxval + (if task.fence_counter = 0 then 1 else task.fence_counter)
      < U32MOD) :
    1 ≤ (nvdla_get_signal_fences maxval sid task).task.fence_counter
    ∧ (task.fence_counter = 0 →
        (nvdla_get_signal_fences maxval sid task).task.fence_counter = 1)
    ∧ (nvdla_get_signal_fences maxval sid task).taskFence =
        maxval + (nvdla_get_signal_fences maxval sid task).task.fence_counter
    ∧ prevFence < (nvdla_get_signal_fences maxval sid task).taskFence := by
  unfold nvdla_get_signal_fences
  dsimp only
  have htf := add32_eq_add maxval
    (if task.fence_counter = 0 then 1 else task.fence_counter) hov
  refine ⟨?_, ?_, htf.trans ?_, ?_⟩
  · split
    · omega
    · rename_i hne
      omega
  · intro h0
    rw [if_pos h0]
  · rfl
  · rw [htf]
    split
    · omega
    · rename_i hne
      omega

/-- C1: evidence of the power-on failure slip in
    `nvdla_queue_submit_op`.  When `nvhost_module_busy` fails (here with
    `-EFAULT`) the submission is unwound — the task is removed from the
    task list and freed — but the return value of `nvhost_module_busy`
    is discarded (`if (nvhost_module_busy(pdev)) goto fail_to_poweron;`
    with `err` still `0`), so submit reports success (`0`) to the
    caller instead of a non-zero error code. -/
theorem claim_C1_poweron_failure_returns_success :
    (nvdla_queue_submit_op envC1 {} {}).err = 0
    ∧ (nvdla_queue_submit_op envC1 {} {}).tasklist = []
    ∧ (nvdla_queue_submit_op envC1 {} {}).taskFreed = true
    ∧ (nvdla_queue_submit_op envC1 {} {}).powerAcquired = false := by
  decide

/-- C2: evidence that a semaphore pin failure during action-list fill-in
    is not reported.  With every pin failing, the semaphore wait
    prefence and signal postfence of `taskC2` are silently omitted
    (`break` with `err` still `0`): both fills and the whole
    `nvdla_fill_task_desc` succeed, producing action lists without the
    semaphore actions, instead of the pin failure being propagated as an
    error. -/
theorem claim_C2_sem_pin_failure_not_reported :
    (nvdla_fill_preactions envC2 1 taskC2).err = 0
    ∧ (nvdla_fill_preactions envC2 1 taskC2).acts = [Action.terminate]
    ∧ (nvdla_fill_postactions envC2 1 taskC2).err = 0
    ∧ (nvdla_fill_postactions envC2 1 taskC2).acts =
        [Action.writeTaskStatus 640 0, Action.terminate]
    ∧ (nvdla_fill_task_desc envC2 1 taskC2).err = 0 := by
  decide

/-- C4 counterexample: a dispatch failure on the channel submission path
    does not leave the task queued.  With `nvdla_send_cmd_channel`
    failing, submit returns the error, but the task has been removed
    from the task list and freed (`fail_to_channel_submit` runs
    `nvdla_task_free_locked`), refuting the claim that on a channel
    dispatch failure the task remains in the queue's task list. -/
theorem claim_C4_counterexample :
    (nvdla_queue_submit_op envC4chan {} {}).err = -5
    ∧ (nvdla_queue_submit_op envC4chan {} {}).tasklist = []
    ∧ (nvdla_queue_submit_op envC4chan {} {}).taskFreed = true := by
  decide

/-- C4 (amended): only an MMIO dispatch failure — which happens after
    notifier registration — leaves the task in the task list, reporting
    the error and forcing the syncpoint to the task's fence so the
    completion path reclaims it; a channel dispatch failure (which
    happens before registration) removes the task from the list and
    frees it before the error is returned. -/
theorem claim_C4_amended_dispatch_failure (env : SubmitEnv) (st : QueueState)
    (task : NvdlaTask) (hbusy : env.moduleBusy = 0) :
    (env.mode = SubmitMode.mmio → env.registerNotifier = 0 → env.sendMmio ≠ 0 →
      (nvdla_queue_submit_op env st task).err = env.sendMmio
      ∧ (nvdla_queue_submit_op env st task).tasklist =
          st.tasklist ++ [{task with fence := add32 st.syncptMax task.fence_counter}]
      ∧ (nvdla_queue_submit_op env st task).syncptMin =
          add32 st.syncptMax task.fence_counter
      ∧ (nvdla_queue_submit_op env st task).taskFreed = false)
    ∧ (env.mode = SubmitMode.channel → env.sendChannel ≠ 0 →
      (nvdla_queue_submit_op env st task).err = env.sendChannel
      ∧ (nvdla_queue_submit_op env st task).tasklist = st.tasklist
      ∧ (nvdla_queue_submit_op env st task).taskFreed = true) := by
  constructor
  · intro hm hr hs
    unfold nvdla_queue_submit_op
    rw [hm]
    simp [hbusy, hr, hs]
  · intro hm hs
    unfold nvdla_queue_submit_op
    rw [hm]
    simp [hbusy, hs]

theorem claim_C4_witness :
    (envC4mmio.mode = SubmitMode.mmio → envC4mmio.registerNotifier = 0 →
      envC4mmio.sendMmio ≠ 0 →
      (nvdla_queue_submit_op envC4mmio {} {}).err = envC4mmio.sendMmio
      ∧ (nvdla_queue_submit_op envC4mmio {} {}).tasklist =
          (({} : QueueState)).tasklist ++
            [{({} : NvdlaTask) with
                fence := add32 (({} : QueueState)).syncptMax
                  (({} : NvdlaTask)).fence_counter}]
      ∧ (nvdla_queue_submit_op envC4mmio {} {}).syncptMin =
          add32 (({} : QueueState)).syncptMax (({} : NvdlaTask)).fence_counter
      ∧ (nvdla_queue_submit_op envC4mmio {} {}).taskFreed = false)
    ∧ (envC4mmio.mode = SubmitMode.channel → envC4mmio.sendChannel ≠ 0 →
      (nvdla_queue_submit_op envC4mmio {} {}).err = envC4mmio.sendChannel
      ∧ (nvdla_queue_submit_op envC4mmio {} {}).tasklist = (({} : QueueState)).tasklist
      ∧ (nvdla_queue_submit_op envC4mmio {} {}).taskFreed = true) :=
  claim_C4_amended_dispatch_failure envC4mmio {} {} rfl

theorem claim_C3_witness :
    (nvdla_fill_preactions envC3 1 taskC3).err = 0
    ∧ (nvdla_fill_postactions envC3 1 taskC3).err = 0
    ∧ ((nvdla_fill_preactions envC3 1 taskC3).acts =
        (taskC3.prefences.map (fun f => (waitStep envC3 f).acts)).flatten
        ++ (taskC3.in_task_status.map
              (fun s => (nvdla_fill_taskstatus_read_action envC3 s).acts)).flatten
        ++ (taskC3.sof_task_status.map
              (fun s => (nvdla_fill_taskstatus_write_action envC3 s).acts)).flatten
        ++ (taskC3.sof_timestamps.map
              (fun t => (nvdla_fill_timestamp_write_action envC3 t).acts)).flatten
        ++ (taskC3.prefences.map
              (fun f => (signalPrefenceStep envC3 1 f).acts)).flatten
        ++ [Action.terminate]
      ∧ (nvdla_fill_postactions envC3 1 taskC3).acts =
        [Action.writeTaskStatus (taskC3.task_desc_pa + envC3.profileStatusOffset) 0]
        ++ (taskC3.eof_timestamps.map
              (fun t => (nvdla_fill_timestamp_write_action envC3 t).acts)).flatten
        ++ (taskC3.eof_task_status.map
              (fun s => (nvdla_fill_taskstatus_write_action envC3 s).acts)).flatten
        ++ (taskC3.postfences.map
              (fun f => (nvdla_fill_signal_fence_action envC3 1 f).acts)).flatten
        ++ [Action.terminate]) :=
  ⟨by decide, by decide,
   claim_C3_action_list_ordering envC3 1 taskC3 (by decide) (by decide)⟩

theorem claim_C5_witness :
    envC5.pin 0 = none
    ∧ (nvdla_fill_task_desc envC5 1 taskC5).err ≠ 0
    ∧ (∀ h : Nat,
        countH h (nvdla_fill_task_desc envC5 1 taskC5).pins ≤
          countH h (nvdla_fill_task_desc envC5 1 taskC5).unpins) :=
  ⟨rfl, by decide,
   claim_C5_fill_desc_unwinds_pins envC5 1 taskC5 rfl (by decide)⟩

theorem claim_C6_witness :
    stC6.tasklist ≠ []
    ∧ stC6.tasklist.getLast? = some tlC6
    ∧ (nvdla_queue_abort_op 0 (fun _ => 0) stC6).err = 0
    ∧ ((nvdla_queue_abort_op 0 (fun _ => 0) stC6).syncptMin = tlC6.fence
      ∧ (nvdla_queue_abort_op 0 (fun _ => 0) stC6).tasklist = stC6.tasklist
      ∧ (nvdla_queue_update (nvdla_queue_abort_op 0 (fun _ => 0) stC6).syncptMin
          (nvdla_queue_abort_op 0 (fun _ => 0) stC6).tasklist).completed =
            stC6.tasklist
      ∧ (nvdla_queue_update (nvdla_queue_abort_op 0 (fun _ => 0) stC6).syncptMin
          (nvdla_queue_abort_op 0 (fun _ => 0) stC6).tasklist).tasklist = []) :=
  ⟨by decide, by decide, by decide,
   claim_C6_abort_completes_all 0 (fun _ => 0) stC6 tlC6 (by decide) (by decide)
     (by decide) (by decide) (by decide)⟩

theorem claim_C7_witness :
    taskC7.fence_counter = 2
    ∧ (nvdla_emulator_submit 20 3 taskC7E).err = 0
    ∧ (sigValues ((nvdla_get_signal_fences 10 4 taskC7).task.prefences ++
          (nvdla_get_signal_fences 10 4 taskC7).task.postfences) =
        (List.range 2).map
          (fun j => (nvdla_get_signal_fences 10 4 taskC7).taskFence - (2 - 1 - j))
      ∧ sigValues ((nvdla_emulator_submit 20 3 taskC7E).task.prefences ++
          (nvdla_emulator_submit 20 3 taskC7E).task.postfences) =
        (List.range 2).map
          (fun j => (nvdla_emulator_submit 20 3 taskC7E).task.fence - (2 - 1 - j))) :=
  ⟨rfl, by decide,
   claim_C7_signal_fence_values 10 4 taskC7 2 20 3 taskC7E 2 (by decide) rfl
     (by decide) (by decide) (by decide) (by decide)⟩

theorem claim_C8_witness :
    stC8.tasklist = []
    ∧ ((nvdla_queue_abort_op 0 (fun _ => DLA_ERR_PROCESSOR_BUSY) stC8).err = 0
      ∧ (nvdla_queue_abort_op 0 (fun _ => DLA_ERR_PROCESSOR_BUSY) stC8).tasklist =
          stC8.tasklist
      ∧ (nvdla_queue_abort_op 0 (fun _ => DLA_ERR_PROCESSOR_BUSY) stC8).syncptMin =
          stC8.syncptMin
      ∧ (nvdla_queue_abort_op 0 (fun _ => DLA_ERR_PROCESSOR_BUSY) stC8).syncptMax =
          stC8.syncptMax
      ∧ (nvdla_queue_abort_op 0 (fun _ => DLA_ERR_PROCESSOR_BUSY) stC8).powerAcquired =
          false
      ∧ (nvdla_queue_abort_op 0 (fun _ => DLA_ERR_PROCESSOR_BUSY) stC8).powerIdleCalls =
          0
      ∧ (nvdla_queue_abort_op 0 (fun _ => DLA_ERR_PROCESSOR_BUSY) stC8).flushCmdsSent =
          0
      ∧ (nvdla_queue_abort_op 0 (fun _ => DLA_ERR_PROCESSOR_BUSY)
          {tasklist := (nvdla_queue_abort_op 0 (fun _ => DLA_ERR_PROCESSOR_BUSY)
              stC8).tasklist,
           syncptMax := (nvdla_queue_abort_op 0 (fun _ => DLA_ERR_PROCESSOR_BUSY)
              stC8).syncptMax,
           syncptMin := (nvdla_queue_abort_op 0 (fun _ => DLA_ERR_PROCESSOR_BUSY)
              stC8).syncptMin}).err = 0
      ∧ (nvdla_queue_abort_op 0 (fun _ => DLA_ERR_PROCESSOR_BUSY)
          {tasklist := (nvdla_queue_abort_op 0 (fun _ => DLA_ERR_PROCESSOR_BUSY)
              stC8).tasklist,
           syncptMax := (nvdla_queue_abort_op 0 (fun _ => DLA_ERR_PROCESSOR_BUSY)
              stC8).syncptMax,
           syncptMin := (nvdla_queue_abort_op 0 (fun _ => DLA_ERR_PROCESSOR_BUSY)
              stC8).syncptMin}).powerAcquired = false
      ∧ (nvdla_queue_abort_op 0 (fun _ => DLA_ERR_PROCESSOR_BUSY)
          {tasklist := (nvdla_queue_abort_op 0 (fun _ => DLA_ERR_PROCESSOR_BUSY)
              stC8).tasklist,
           syncptMax := (nvdla_queue_abort_op 0 (fun _ => DLA_ERR_PROCESSOR_BUSY)
              stC8).syncptMax,
           syncptMin := (nvdla_queue_abort_op 0 (fun _ => DLA_ERR_PROCESSOR_BUSY)
              stC8).syncptMin}).flushCmdsSent = 0) :=
  ⟨rfl, claim_C8_abort_empty_idempotent 0 (fun _ => DLA_ERR_PROCESSOR_BUSY) stC8 rfl⟩

theorem claim_C9_witness :
    List.Pairwise (fun a b => a.fence ≤ b.fence) tasksC9
    ∧ ((nvdla_queue_update 2 tasksC9).completed ++
        (nvdla_queue_update 2 tasksC9).tasklist = tasksC9
      ∧ (nvdla_queue_update 2 tasksC9).completed <+: tasksC9
      ∧ (nvdla_queue_update 2 tasksC9).idleMultCalls =
          [(nvdla_queue_update 2 tasksC9).completed.length]) :=
  ⟨by decide, claim_C9_fifo_completion 2 tasksC9 (by decide)⟩

theorem claim_C10_witness :
    10 ≤ (10 : Nat)
    ∧ (1 ≤ (nvdla_get_signal_fences 10 2 taskC10).task.fence_counter
      ∧ (taskC10.fence_counter = 0 →
          (nvdla_get_signal_fences 10 2 taskC10).task.fence_counter = 1)
      ∧ (nvdla_get_signal_fences 10 2 taskC10).taskFence =
          10 + (nvdla_get_signal_fences 10 2 taskC10).task.fence_counter
      ∧ 10 < (nvdla_get_signal_fences 10 2 taskC10).taskFence) :=
  ⟨by decide,
   claim_C10_zero_fence_counter_forced 10 2 10 taskC10 (by decide) (by decide)⟩

end Nvdla
